import Mathlib

/-!
# Verification of the KeePassXC FileWatcher core

This file gives a shallow embedding of `src/core/FileWatcher.cpp`: the
per-path watch (`FileWatcherPrivate`) as a pure state record `Watch`, its
slots and helpers as pure functions, and the registry (`FileWatcher`) as an
association list of watches together with the OS-backend subscription set.
The event-driven behaviour (OS change events, timer firings, asynchronous
checksum completions, pause/resume broadcasts) is modelled as a step
function `regStep` over an event alphabet `RegEvent`; `regRun` folds a trace
of events and collects the paths emitted by the `fileChanged` signal.

The SHA-256 hash is kept as an explicit function parameter `hash`; where a
claim relies on distinct contents having distinct digests (collision
resistance) the corresponding theorem carries `Function.Injective hash` as
an explicit hypothesis.
-/

namespace FileWatcherSpec

/-- Byte sequences (`QByteArray`) are modelled as lists of naturals. -/
abbrev Bytes := List Nat

/-- Embeds `FileWatcherPrivate::calculateChecksum`. `content` is the file's
content at read time (`none` when the file cannot be opened). If the file
opens and `m_fileChecksumSizeBytes` is positive, only that many leading
bytes are hashed, else the whole content; on open failure the previously
known checksum `prev` (the member `m_fileChecksum` read by the function) is
returned unchanged. -/
def calculateChecksum (hash : Bytes → Bytes) (content : Option Bytes)
    (sizeBytes : Int) (prev : Bytes) : Bytes :=
  match content with
  | some data => if 0 < sizeBytes then hash (data.take sizeBytes.toNat) else hash data
  | none => prev

/-- State of one `FileWatcherPrivate`. Qt timers are modelled by their
active/inactive status; `pendingChecks` counts outstanding
`AsyncTask::runThenCallback` checksum computations (not a C++ member, but
the number of dispatched-and-not-yet-completed closures). -/
structure Watch where
  filePath : String
  fileChecksum : Bytes
  changeDelayActive : Bool
  ignoreDelayActive : Bool
  checksumTimerActive : Bool
  fileChecksumSizeBytes : Int
  ignoreFileChange : Bool
  pendingChecks : Nat
deriving Repr, DecidableEq

/-- A freshly constructed `FileWatcherPrivate`: no path, no checksum, all
timers inactive, `m_fileChecksumSizeBytes = -1`, guard clear. -/
def Watch.init : Watch :=
  { filePath := ""
    fileChecksum := []
    changeDelayActive := false
    ignoreDelayActive := false
    checksumTimerActive := false
    fileChecksumSizeBytes := -1
    ignoreFileChange := false
    pendingChecks := 0 }

/-- Embeds `FileWatcherPrivate::shouldIgnoreChanges`. -/
def Watch.shouldIgnoreChanges (w : Watch) : Bool :=
  w.filePath.isEmpty || w.ignoreFileChange || w.ignoreDelayActive || w.changeDelayActive

/-- Embeds `FileWatcherPrivate::stop`: clears the path and checksum and
stops the periodic checksum timer and the change-delay (debounce) timer.
The ignore-delay timer and the `m_ignoreFileChange` flag are not touched by
the source. -/
def Watch.stop (w : Watch) : Watch :=
  { w with filePath := ""
           fileChecksum := []
           checksumTimerActive := false
           changeDelayActive := false }

/-- Embeds `FileWatcherPrivate::start`: stop, assign the path, set the
checksum size limit from kibibytes, compute the initial checksum
synchronously from the file's current content, arm the periodic timer when
the interval is positive, clear the ignore flag. -/
def Watch.start (hash : Bytes → Bytes) (w : Watch) (path : String)
    (intervalSeconds sizeKB : Int) (content : Option Bytes) : Watch :=
  let w0 := w.stop
  let sizeBytes := sizeKB * 1024
  { w0 with filePath := path
            fileChecksumSizeBytes := sizeBytes
            fileChecksum := calculateChecksum hash content sizeBytes w0.fileChecksum
            checksumTimerActive := decide (0 < intervalSeconds)
            ignoreFileChange := false }

/-- Embeds the `pause` slot: set the ignore flag and stop the debounce
timer. -/
def Watch.pause (w : Watch) : Watch :=
  { w with ignoreFileChange := true, changeDelayActive := false }

/-- Embeds the `resume` slot: clear the ignore flag and start the ignore
window timer (when it was already active it keeps running, so the timer is
active afterwards either way). -/
def Watch.resume (w : Watch) : Watch :=
  { w with ignoreFileChange := false, ignoreDelayActive := true }

/-- Embeds the `checkFileChanged` slot of `FileWatcherPrivate`: when gated
by `shouldIgnoreChanges` the event is dropped, otherwise the reentrancy
guard is set and one asynchronous checksum computation is dispatched. -/
def Watch.checkFileChanged (w : Watch) : Watch :=
  if w.shouldIgnoreChanges then w
  else { w with ignoreFileChange := true, pendingChecks := w.pendingChecks + 1 }

/-- Embeds the completion callback of the asynchronous checksum task: if
the computed checksum differs from the stored one, store it and start the
debounce timer; in either case clear the reentrancy guard. One outstanding
task is consumed. -/
def Watch.asyncComplete (w : Watch) (checksum : Bytes) : Watch :=
  let w1 := if checksum ≠ w.fileChecksum
            then { w with fileChecksum := checksum, changeDelayActive := true }
            else w
  { w1 with ignoreFileChange := false, pendingChecks := w.pendingChecks - 1 }

/-- Embeds `FileWatcherPrivate::hasSameFileChecksum`: recompute and compare
to the stored checksum. -/
def Watch.hasSameFileChecksum (hash : Bytes → Bytes) (w : Watch)
    (content : Option Bytes) : Bool :=
  calculateChecksum hash content w.fileChecksumSizeBytes w.fileChecksum == w.fileChecksum

/-- State of the registry `FileWatcher`: the path-to-watch map `m_watches`
(as an association list) and the `QFileSystemWatcher` subscription set. -/
structure FileWatcher where
  watches : List (String × Watch)
  osWatched : List String
deriving Repr, DecidableEq

/-- A freshly constructed `FileWatcher`. -/
def FileWatcher.init : FileWatcher := { watches := [], osWatched := [] }

/-- Applies `f` to the watch stored under `path`, leaving other entries
unchanged (in-place mutation of the `QHash` value). -/
def updateWatch (ws : List (String × Watch)) (path : String)
    (f : Watch → Watch) : List (String × Watch) :=
  ws.map (fun q => if q.1 == path then (q.1, f q.2) else q)

/-- Embeds `FileWatcher::addPath`. If the path is not yet tracked, the OS
backend is asked to subscribe it (the boolean result `subscribeOk` of
`QFileSystemWatcher::addPath` is ignored by the source) and a fresh private
watch is inserted; in all cases `start` is called on the path's watch. The
returned `Nat` counts how many backend subscription attempts were made.
The operation returns no error indication of any kind. -/
def FileWatcher.addPath (hash : Bytes → Bytes) (reg : FileWatcher)
    (path : String) (intervalSeconds sizeKB : Int) (content : Option Bytes)
    (subscribeOk : Bool) : FileWatcher × Nat :=
  let inserted : FileWatcher × Nat :=
    if (reg.watches.lookup path).isSome then (reg, 0)
    else
      let os := if subscribeOk then path :: reg.osWatched else reg.osWatched
      ({ watches := (path, Watch.init) :: reg.watches, osWatched := os }, 1)
  let f := fun (w : Watch) => w.start hash path intervalSeconds sizeKB content
  ({ inserted.1 with watches := updateWatch inserted.1.watches path f }, inserted.2)

/-- Embeds `FileWatcher::removePath`: when tracked, unsubscribe from the OS
backend and discard the watch; otherwise a no-op. -/
def FileWatcher.removePath (reg : FileWatcher) (path : String) : FileWatcher :=
  if (reg.watches.lookup path).isSome then
    { watches := reg.watches.filter (fun q => !(q.1 == path))
      osWatched := reg.osWatched.filter (fun q => !(q == path)) }
  else reg

/-- Embeds the `FileWatcher::checkFileChanged` slot: route a raw OS event
to the matching watch; silently ignore events for untracked paths. The
second component is the list of paths emitted by `fileChanged` during this
step (always empty: routing alone emits nothing). -/
def FileWatcher.checkFileChanged (reg : FileWatcher) (path : String) :
    FileWatcher × List String :=
  match reg.watches.lookup path with
  | some _ => ({ reg with watches := updateWatch reg.watches path Watch.checkFileChanged }, [])
  | none => (reg, [])

/-- Embeds `FileWatcher::hasSameFileChecksum`: delegate to the named watch,
`false` when the path is not tracked. -/
def FileWatcher.hasSameFileChecksum (hash : Bytes → Bytes) (reg : FileWatcher)
    (path : String) (content : Option Bytes) : Bool :=
  match reg.watches.lookup path with
  | some w => w.hasSameFileChecksum hash content
  | none => false

/-- Embeds `FileWatcher::pause`: broadcast to every tracked watch. -/
def FileWatcher.pause (reg : FileWatcher) : FileWatcher :=
  { reg with watches := reg.watches.map (fun q => (q.1, q.2.pause)) }

/-- Embeds `FileWatcher::resume`: broadcast to every tracked watch. -/
def FileWatcher.resume (reg : FileWatcher) : FileWatcher :=
  { reg with watches := reg.watches.map (fun q => (q.1, q.2.resume)) }

/-- Events driving the registry: raw OS-backend change notifications (also
covering the periodic checksum timer, which invokes the same slot),
asynchronous checksum completions carrying the file content observed at
read time, firings of the single-shot debounce and ignore-window timers,
the pause/resume broadcasts, and registration/removal calls. -/
inductive RegEvent where
  | osEvent (path : String)
  | asyncDone (path : String) (content : Option Bytes)
  | debounceFire (path : String)
  | ignoreExpire (path : String)
  | pauseAll
  | resumeAll
  | addEv (path : String) (intervalSeconds sizeKB : Int) (content : Option Bytes)
      (subscribeOk : Bool)
  | removeEv (path : String)
deriving Repr, DecidableEq

/-- One step of the registry under an event. The second component lists the
paths for which the `fileChanged` signal is emitted during the step: only
the debounce timer's timeout emits, with the watch's current `m_filePath`.
An `asyncDone` is only deliverable when the watch still exists and has an
outstanding computation (a destroyed watch drops the callback). -/
def regStep (hash : Bytes → Bytes) (reg : FileWatcher) :
    RegEvent → FileWatcher × List String
  | .osEvent p => reg.checkFileChanged p
  | .asyncDone p content =>
      match reg.watches.lookup p with
      | some w =>
          if w.pendingChecks = 0 then (reg, [])
          else
            let f := fun (v : Watch) => v.asyncComplete
              (calculateChecksum hash content v.fileChecksumSizeBytes v.fileChecksum)
            ({ reg with watches := updateWatch reg.watches p f }, [])
      | none => (reg, [])
  | .debounceFire p =>
      match reg.watches.lookup p with
      | some w =>
          if w.changeDelayActive then
            let f := fun (v : Watch) => { v with changeDelayActive := false }
            ({ reg with watches := updateWatch reg.watches p f }, [w.filePath])
          else (reg, [])
      | none => (reg, [])
  | .ignoreExpire p =>
      match reg.watches.lookup p with
      | some w =>
          if w.ignoreDelayActive then
            let f := fun (v : Watch) => { v with ignoreDelayActive := false }
            ({ reg with watches := updateWatch reg.watches p f }, [])
          else (reg, [])
      | none => (reg, [])
  | .pauseAll => (reg.pause, [])
  | .resumeAll => (reg.resume, [])
  | .addEv p i k content ok => ((reg.addPath hash p i k content ok).1, [])
  | .removeEv p => (reg.removePath p, [])

/-- Runs a trace of events, collecting all emitted `fileChanged` paths in
order. -/
def regRun (hash : Bytes → Bytes) (reg : FileWatcher) :
    List RegEvent → FileWatcher × List String
  | [] => (reg, [])
  | e :: es =>
      let r := regStep hash reg e
      let rest := regRun hash r.1 es
      (rest.1, r.2 ++ rest.2)

/-! ## Predicates and sample objects used by the claims -/

/-- Single-flight invariant: at most one outstanding checksum computation,
and while one is outstanding the reentrancy guard is set. -/
def InvW (w : Watch) : Prop :=
  w.pendingChecks ≤ 1 ∧ (w.pendingChecks = 1 → w.ignoreFileChange = true)

/-- The single-flight invariant for every tracked watch. -/
def AllInv (reg : FileWatcher) : Prop := ∀ q ∈ reg.watches, InvW q.2

/-- Events that keep the single-flight guarantee: everything except the
resume broadcast and (re)registration, both of which clear the reentrancy
guard even while a computation may still be outstanding. -/
def keepsGuard : RegEvent → Bool
  | .resumeAll => false
  | .addEv _ _ _ _ _ => false
  | _ => true

/-- A quiet watch during a pause: debounce timer off, nothing in flight,
and either the pause flag or the ignore-window timer gates new events. -/
def Quiet (w : Watch) : Prop :=
  w.changeDelayActive = false ∧ w.pendingChecks = 0 ∧
    (w.ignoreFileChange = true ∨ w.ignoreDelayActive = true)

/-- Every tracked watch is quiet. -/
def AllQuiet (reg : FileWatcher) : Prop := ∀ q ∈ reg.watches, Quiet q.2

/-- Events that can occur while a pause is in force and before any resume's
ignore window has elapsed: everything except the ignore-window expiry
(which is precisely the window elapsing) and (re)registration (which
re-arms the watch). -/
def inPauseWindow : RegEvent → Bool
  | .ignoreExpire _ => false
  | .addEv _ _ _ _ _ => false
  | _ => true

/-- No asynchronous checksum computation is outstanding for any tracked
path. -/
def NoPending (reg : FileWatcher) : Prop :=
  ∀ q ∈ reg.watches, q.2.pendingChecks = 0

/-- The trace respects the reentrancy guard: a resume broadcast or a
(re)registration — the two operations that clear the guard — occurs only at
moments when no checksum computation is outstanding. All other events may
occur freely at any time. -/
def GuardSafe (hash : Bytes → Bytes) : FileWatcher → List RegEvent → Prop
  | _, [] => True
  | reg, e :: es =>
      (keepsGuard e = false → NoPending reg) ∧
        GuardSafe hash (regStep hash reg e).1 es

instance (w : Watch) : Decidable (InvW w) := by
  unfold InvW
  infer_instance

instance (reg : FileWatcher) : Decidable (AllInv reg) := by
  unfold AllInv
  infer_instance

instance (w : Watch) : Decidable (Quiet w) := by
  unfold Quiet
  infer_instance

instance (reg : FileWatcher) : Decidable (AllQuiet reg) := by
  unfold AllQuiet
  infer_instance

instance (reg : FileWatcher) : Decidable (NoPending reg) := by
  unfold NoPending
  infer_instance

instance instGuardSafeDec (hash : Bytes → Bytes) : (reg : FileWatcher) →
    (es : List RegEvent) → Decidable (GuardSafe hash reg es)
  | _, [] => .isTrue trivial
  | reg, e :: t =>
      have : Decidable (GuardSafe hash (regStep hash reg e).1 t) :=
        instGuardSafeDec hash (regStep hash reg e).1 t
      decidable_of_iff ((keepsGuard e = false → NoPending reg) ∧
        GuardSafe hash (regStep hash reg e).1 t) Iff.rfl

/-- The identity digest: a concrete (injective) stand-in for the hash used
by witnesses and counterexamples. -/
def idHash : Bytes → Bytes := fun b => b

/-- A registry with one path "a" registered over a one-byte file. -/
def sampleReg : FileWatcher :=
  (FileWatcher.init.addPath idHash "a" 0 (-1) (some [0]) true).1

/-- The per-path watch stored in `sampleReg`. -/
def sampleWatch : Watch := Watch.init.start idHash "a" 0 (-1) (some [0])

/-! ## Basic lemmas about the association-list operations -/

lemma updateWatch_cons (q : String × Watch) (t : List (String × Watch))
    (p : String) (f : Watch → Watch) :
    updateWatch (q :: t) p f =
      (if q.1 == p then (q.1, f q.2) else q) :: updateWatch t p f := rfl

lemma lookup_updateWatch_self (ws : List (String × Watch)) (p : String)
    (f : Watch → Watch) : (updateWatch ws p f).lookup p = (ws.lookup p).map f := by
  induction ws with
  | nil => rfl
  | cons q t ih =>
      obtain ⟨k, v⟩ := q
      rw [updateWatch_cons]
      by_cases h : k = p
      · subst h
        simp [List.lookup_cons]
      · have hb : (k == p) = false := by simpa using h
        have hb2 : (p == k) = false := by
          simp only [beq_eq_false_iff_ne]
          exact fun hc => h hc.symm
        simp only [hb, Bool.false_eq_true, if_false, List.lookup_cons, hb2]
        exact ih

lemma updateWatch_eq_self (ws : List (String × Watch)) (p : String)
    (f : Watch → Watch) (h : ∀ q ∈ ws, q.1 = p → f q.2 = q.2) :
    updateWatch ws p f = ws := by
  induction ws with
  | nil => rfl
  | cons q t ih =>
      obtain ⟨k, v⟩ := q
      have ht : updateWatch t p f = t :=
        ih (fun r hr => h r (List.mem_cons_of_mem _ hr))
      rw [updateWatch_cons, ht]
      by_cases hq : k = p
      · have hv : f v = v := h (k, v) (List.mem_cons_self _ _) hq
        simp [hq, hv]
      · have hb : (k == p) = false := by simpa using hq
        simp [hb]

lemma lookup_filter_ne (ws : List (String × Watch)) (p : String) :
    (ws.filter (fun q => !(q.1 == p))).lookup p = none := by
  induction ws with
  | nil => rfl
  | cons q t ih =>
      obtain ⟨k, v⟩ := q
      by_cases h : k = p
      · have hb : (k == p) = true := by simpa using h
        simpa [List.filter_cons, hb] using ih
      · have hb : (k == p) = false := by simpa using h
        have hb2 : (p == k) = false := by
          simp only [beq_eq_false_iff_ne]
          exact fun hc => h hc.symm
        simpa [List.filter_cons, hb, List.lookup_cons, hb2] using ih

lemma regRun_append (hash : Bytes → Bytes) (reg : FileWatcher)
    (l1 l2 : List RegEvent) :
    regRun hash reg (l1 ++ l2) =
      ((regRun hash (regRun hash reg l1).1 l2).1,
       (regRun hash reg l1).2 ++ (regRun hash (regRun hash reg l1).1 l2).2) := by
  induction l1 generalizing reg with
  | nil => simp [regRun]
  | cons e t ih => simp [regRun, ih, List.append_assoc]

/-! ## Basic lemmas about the per-path watch -/

lemma checkFileChanged_of_gated (w : Watch) (h : w.shouldIgnoreChanges = true) :
    w.checkFileChanged = w := by
  simp [Watch.checkFileChanged, h]

lemma checkFileChanged_of_open (w : Watch) (h : w.shouldIgnoreChanges = false) :
    w.checkFileChanged =
      { w with ignoreFileChange := true, pendingChecks := w.pendingChecks + 1 } := by
  simp [Watch.checkFileChanged, h]

lemma shouldIgnore_of_ignore (w : Watch) (h : w.ignoreFileChange = true) :
    w.shouldIgnoreChanges = true := by
  simp [Watch.shouldIgnoreChanges, h]

lemma shouldIgnore_of_delay (w : Watch) (h : w.changeDelayActive = true) :
    w.shouldIgnoreChanges = true := by
  simp [Watch.shouldIgnoreChanges, h]

lemma asyncComplete_of_ne (w : Watch) (c : Bytes) (h : c ≠ w.fileChecksum) :
    w.asyncComplete c =
      { w with fileChecksum := c, changeDelayActive := true,
               ignoreFileChange := false, pendingChecks := w.pendingChecks - 1 } := by
  simp [Watch.asyncComplete, h]

lemma asyncComplete_of_eq (w : Watch) (c : Bytes) (h : c = w.fileChecksum) :
    w.asyncComplete c =
      { w with ignoreFileChange := false, pendingChecks := w.pendingChecks - 1 } := by
  simp [Watch.asyncComplete, h]

/-! ## Step and run lemmas used to settle the trace claims -/

lemma regStep_osEvent_snd (hash : Bytes → Bytes) (reg : FileWatcher) (p : String) :
    (regStep hash reg (.osEvent p)).2 = [] := by
  simp only [regStep, FileWatcher.checkFileChanged]
  cases reg.watches.lookup p <;> rfl

lemma regStep_osEvent_lookup (hash : Bytes → Bytes) (reg : FileWatcher) (p : String) :
    ((regStep hash reg (.osEvent p)).1.watches.lookup p) =
      (reg.watches.lookup p).map Watch.checkFileChanged := by
  simp only [regStep, FileWatcher.checkFileChanged]
  cases h : reg.watches.lookup p with
  | none => simp [h]
  | some w => simp [h, lookup_updateWatch_self]

lemma regRun_osEvents_fixed (hash : Bytes → Bytes) (p : String) (k : Nat)
    (reg : FileWatcher) (w : Watch) (h1 : reg.watches.lookup p = some w)
    (h2 : w.checkFileChanged = w) :
    ((regRun hash reg (List.replicate k (.osEvent p))).1.watches.lookup p = some w) ∧
    (regRun hash reg (List.replicate k (.osEvent p))).2 = [] := by
  induction k generalizing reg with
  | zero => exact ⟨h1, rfl⟩
  | succ n ih =>
      have hstep : ((regStep hash reg (.osEvent p)).1.watches.lookup p) = some w := by
        rw [regStep_osEvent_lookup, h1]
        simp [h2]
      have := ih (regStep hash reg (.osEvent p)).1 hstep
      simp only [List.replicate_succ, regRun]
      exact ⟨this.1, by simp [regStep_osEvent_snd, this.2]⟩

lemma regRun_cons (hash : Bytes → Bytes) (reg : FileWatcher) (e : RegEvent)
    (es : List RegEvent) :
    regRun hash reg (e :: es) =
      ((regRun hash (regStep hash reg e).1 es).1,
       (regStep hash reg e).2 ++ (regRun hash (regStep hash reg e).1 es).2) := rfl

lemma regStep_asyncDone_of_pending (hash : Bytes → Bytes) (reg : FileWatcher)
    (p : String) (content : Option Bytes) (v : Watch)
    (hl : reg.watches.lookup p = some v) (hp : v.pendingChecks ≠ 0) :
    (regStep hash reg (.asyncDone p content)).2 = [] ∧
    ((regStep hash reg (.asyncDone p content)).1.watches.lookup p) =
      some (v.asyncComplete
        (calculateChecksum hash content v.fileChecksumSizeBytes v.fileChecksum)) := by
  simp only [regStep, hl]
  rw [if_neg hp]
  exact ⟨rfl, by simp [lookup_updateWatch_self, hl]⟩

lemma regStep_debounceFire_of_active (hash : Bytes → Bytes) (reg : FileWatcher)
    (p : String) (v : Watch) (hl : reg.watches.lookup p = some v)
    (hd : v.changeDelayActive = true) :
    (regStep hash reg (.debounceFire p)).2 = [v.filePath] := by
  simp only [regStep, hl, hd, if_true]

lemma mem_updateWatch (ws : List (String × Watch)) (p : String)
    (f : Watch → Watch) (q : String × Watch) (hq : q ∈ updateWatch ws p f) :
    ∃ r ∈ ws, q.2 = r.2 ∨ q.2 = f r.2 := by
  obtain ⟨r, hr, hrq⟩ := List.mem_map.mp hq
  refine ⟨r, hr, ?_⟩
  by_cases hb : (r.1 == p) = true
  · right
    rw [← hrq]
    simp [hb]
  · left
    rw [← hrq]
    simp [Bool.of_not_eq_true hb]

lemma lookup_mem (ws : List (String × Watch)) (p : String) (v : Watch)
    (h : ws.lookup p = some v) : (p, v) ∈ ws := by
  obtain ⟨l1, l2, rfl, h2⟩ := List.lookup_eq_some_iff.mp h
  simp

/-! ## Preservation lemmas for the single-flight invariant (C2) -/

lemma invW_checkFileChanged (w : Watch) (h : InvW w) : InvW w.checkFileChanged := by
  by_cases hg : w.shouldIgnoreChanges = true
  · rw [checkFileChanged_of_gated w hg]
    exact h
  · have hg2 : w.shouldIgnoreChanges = false := by simpa using hg
    rw [checkFileChanged_of_open w hg2]
    have hp : w.pendingChecks = 0 := by
      rcases Nat.le_one_iff_eq_zero_or_eq_one.mp h.1 with h0 | h1
      · exact h0
      · exact absurd (shouldIgnore_of_ignore w (h.2 h1)) (by simp [hg2])
    exact ⟨by simp [hp], fun _ => rfl⟩

lemma invW_asyncComplete (w : Watch) (c : Bytes) (h : InvW w) :
    InvW (w.asyncComplete c) := by
  have hfields : (w.asyncComplete c).pendingChecks = w.pendingChecks - 1 ∧
      (w.asyncComplete c).ignoreFileChange = false := by
    by_cases hc : c = w.fileChecksum
    · rw [asyncComplete_of_eq w c hc]
      exact ⟨rfl, rfl⟩
    · rw [asyncComplete_of_ne w c hc]
      exact ⟨rfl, rfl⟩
  constructor
  · rw [hfields.1]
    have h2 := h.1
    omega
  · intro h1
    rw [hfields.1] at h1
    exact absurd h1 (by have h2 := h.1; omega)

lemma invW_pause (w : Watch) (h : InvW w) : InvW w.pause :=
  ⟨h.1, fun _ => rfl⟩

lemma allInv_step (hash : Bytes → Bytes) (reg : FileWatcher) (e : RegEvent)
    (hk : keepsGuard e = true) (h : AllInv reg) : AllInv (regStep hash reg e).1 := by
  cases e with
  | osEvent p =>
      simp only [regStep, FileWatcher.checkFileChanged]
      cases hl : reg.watches.lookup p with
      | none => exact h
      | some w =>
          intro q hq
          obtain ⟨r, hr, hor⟩ := mem_updateWatch _ _ _ q hq
          rcases hor with hor | hor <;> rw [hor]
          · exact h r hr
          · exact invW_checkFileChanged r.2 (h r hr)
  | asyncDone p content =>
      cases hl : reg.watches.lookup p with
      | none => simpa only [regStep, hl] using h
      | some w =>
          simp only [regStep, hl]
          by_cases hp : w.pendingChecks = 0
          · rw [if_pos hp]
            exact h
          · rw [if_neg hp]
            intro q hq
            have hq2 : q ∈ updateWatch reg.watches p (fun v => v.asyncComplete
                (calculateChecksum hash content v.fileChecksumSizeBytes v.fileChecksum)) := hq
            obtain ⟨r, hr, hor⟩ := mem_updateWatch _ _ _ q hq2
            rcases hor with hor | hor <;> rw [hor]
            · exact h r hr
            · exact invW_asyncComplete r.2 _ (h r hr)
  | debounceFire p =>
      cases hl : reg.watches.lookup p with
      | none => simpa only [regStep, hl] using h
      | some w =>
          simp only [regStep, hl]
          by_cases hd : w.changeDelayActive = true
          · rw [if_pos hd]
            intro q hq
            have hq2 : q ∈ updateWatch reg.watches p
                (fun v => { v with changeDelayActive := false }) := hq
            obtain ⟨r, hr, hor⟩ := mem_updateWatch _ _ _ q hq2
            rcases hor with hor | hor <;> rw [hor]
            · exact h r hr
            · exact ⟨(h r hr).1, (h r hr).2⟩
          · rw [if_neg hd]
            exact h
  | ignoreExpire p =>
      cases hl : reg.watches.lookup p with
      | none => simpa only [regStep, hl] using h
      | some w =>
          simp only [regStep, hl]
          by_cases hd : w.ignoreDelayActive = true
          · rw [if_pos hd]
            intro q hq
            have hq2 : q ∈ updateWatch reg.watches p
                (fun v => { v with ignoreDelayActive := false }) := hq
            obtain ⟨r, hr, hor⟩ := mem_updateWatch _ _ _ q hq2
            rcases hor with hor | hor <;> rw [hor]
            · exact h r hr
            · exact ⟨(h r hr).1, (h r hr).2⟩
          · rw [if_neg hd]
            exact h
  | pauseAll =>
      intro q hq
      obtain ⟨r, hr, hrq⟩ := List.mem_map.mp hq
      rw [← hrq]
      exact invW_pause r.2 (h r hr)
  | resumeAll => simp [keepsGuard] at hk
  | addEv p i k content ok => simp [keepsGuard] at hk
  | removeEv p =>
      simp only [regStep, FileWatcher.removePath]
      by_cases hl : (reg.watches.lookup p).isSome
      · rw [if_pos hl]
        intro q hq
        exact h q (List.mem_of_mem_filter hq)
      · rw [if_neg hl]
        exact h

lemma invW_of_pending_zero (w : Watch) (h : w.pendingChecks = 0) : InvW w :=
  ⟨by omega, fun h1 => absurd (h.symm.trans h1) (by decide)⟩

lemma start_pendingChecks (hash : Bytes → Bytes) (w : Watch) (path : String)
    (i k : Int) (content : Option Bytes) :
    (w.start hash path i k content).pendingChecks = w.pendingChecks := rfl

lemma allInv_step_noPending (hash : Bytes → Bytes) (reg : FileWatcher)
    (e : RegEvent) (hnp : NoPending reg) : AllInv (regStep hash reg e).1 := by
  have hbase : AllInv reg := fun q hq => invW_of_pending_zero _ (hnp q hq)
  cases e with
  | resumeAll =>
      intro q hq
      obtain ⟨r, hr, hrq⟩ := List.mem_map.mp hq
      rw [← hrq]
      exact invW_of_pending_zero _ (hnp r hr)
  | addEv p i k content ok =>
      by_cases hx : (reg.watches.lookup p).isSome
      · intro q hq
        have hq2 : q ∈ updateWatch reg.watches p
            (fun w => w.start hash p i k content) := by
          simpa [regStep, FileWatcher.addPath, hx] using hq
        obtain ⟨r, hr, hor⟩ := mem_updateWatch _ _ _ q hq2
        have hr0 : r.2.pendingChecks = 0 := hnp r hr
        rcases hor with hor | hor <;> rw [hor]
        · exact invW_of_pending_zero _ hr0
        · exact invW_of_pending_zero _ ((start_pendingChecks hash r.2 p i k content).trans hr0)
      · intro q hq
        have hq2 : q ∈ updateWatch ((p, Watch.init) :: reg.watches) p
            (fun w => w.start hash p i k content) := by
          simpa [regStep, FileWatcher.addPath, hx] using hq
        obtain ⟨r, hr, hor⟩ := mem_updateWatch _ _ _ q hq2
        have hr0 : r.2.pendingChecks = 0 := by
          rcases List.mem_cons.mp hr with hr | hr
          · rw [hr]
            rfl
          · exact hnp r hr
        rcases hor with hor | hor <;> rw [hor]
        · exact invW_of_pending_zero _ hr0
        · exact invW_of_pending_zero _ ((start_pendingChecks hash r.2 p i k content).trans hr0)
  | osEvent p => exact allInv_step hash reg (.osEvent p) rfl hbase
  | asyncDone p content => exact allInv_step hash reg (.asyncDone p content) rfl hbase
  | debounceFire p => exact allInv_step hash reg (.debounceFire p) rfl hbase
  | ignoreExpire p => exact allInv_step hash reg (.ignoreExpire p) rfl hbase
  | pauseAll => exact allInv_step hash reg .pauseAll rfl hbase
  | removeEv p => exact allInv_step hash reg (.removeEv p) rfl hbase

lemma allInv_run_guardSafe (hash : Bytes → Bytes) (reg : FileWatcher)
    (es : List RegEvent) (hg : GuardSafe hash reg es) (h : AllInv reg) :
    AllInv (regRun hash reg es).1 := by
  induction es generalizing reg with
  | nil => exact h
  | cons e t ih =>
      simp only [regRun]
      apply ih (regStep hash reg e).1 hg.2
      cases hk : keepsGuard e with
      | true => exact allInv_step hash reg e hk h
      | false => exact allInv_step_noPending hash reg e (hg.1 hk)

/-! ## Preservation lemmas for the pause window (C3) -/

lemma quiet_gated (w : Watch) (h : Quiet w) : w.shouldIgnoreChanges = true := by
  rcases h.2.2 with hi | hi
  · exact shouldIgnore_of_ignore w hi
  · simp [Watch.shouldIgnoreChanges, hi]

lemma quiet_step (hash : Bytes → Bytes) (reg : FileWatcher) (e : RegEvent)
    (hk : inPauseWindow e = true) (h : AllQuiet reg) :
    AllQuiet (regStep hash reg e).1 ∧ (regStep hash reg e).2 = [] := by
  cases e with
  | osEvent p =>
      refine ⟨?_, regStep_osEvent_snd hash reg p⟩
      simp only [regStep, FileWatcher.checkFileChanged]
      cases hl : reg.watches.lookup p with
      | none => exact h
      | some w =>
          intro q hq
          obtain ⟨r, hr, hor⟩ := mem_updateWatch _ _ _ q hq
          rcases hor with hor | hor <;> rw [hor]
          · exact h r hr
          · rw [checkFileChanged_of_gated r.2 (quiet_gated r.2 (h r hr))]
            exact h r hr
  | asyncDone p content =>
      cases hl : reg.watches.lookup p with
      | none => exact ⟨by simpa only [regStep, hl] using h, by simp only [regStep, hl]⟩
      | some w =>
          simp only [regStep, hl]
          rw [if_pos ((h (p, w) (lookup_mem _ _ _ hl)).2.1)]
          exact ⟨h, rfl⟩
  | debounceFire p =>
      cases hl : reg.watches.lookup p with
      | none => exact ⟨by simpa only [regStep, hl] using h, by simp only [regStep, hl]⟩
      | some w =>
          simp only [regStep, hl]
          have hd : w.changeDelayActive = false := (h (p, w) (lookup_mem _ _ _ hl)).1
          rw [if_neg (by simp [hd])]
          exact ⟨h, rfl⟩
  | ignoreExpire p => simp [inPauseWindow] at hk
  | pauseAll =>
      refine ⟨?_, rfl⟩
      intro q hq
      obtain ⟨r, hr, hrq⟩ := List.mem_map.mp hq
      rw [← hrq]
      have hq2 := h r hr
      exact ⟨rfl, hq2.2.1, Or.inl rfl⟩
  | resumeAll =>
      refine ⟨?_, rfl⟩
      intro q hq
      obtain ⟨r, hr, hrq⟩ := List.mem_map.mp hq
      rw [← hrq]
      have hq2 := h r hr
      exact ⟨hq2.1, hq2.2.1, Or.inr rfl⟩
  | addEv p i k content ok => simp [inPauseWindow] at hk
  | removeEv p =>
      refine ⟨?_, rfl⟩
      simp only [regStep, FileWatcher.removePath]
      by_cases hl : (reg.watches.lookup p).isSome
      · rw [if_pos hl]
        intro q hq
        exact h q (List.mem_of_mem_filter hq)
      · rw [if_neg hl]
        exact h

lemma quiet_run (hash : Bytes → Bytes) (reg : FileWatcher) (es : List RegEvent)
    (hk : ∀ e ∈ es, inPauseWindow e = true) (h : AllQuiet reg) :
    AllQuiet (regRun hash reg es).1 ∧ (regRun hash reg es).2 = [] := by
  induction es generalizing reg with
  | nil => exact ⟨h, rfl⟩
  | cons e t ih =>
      have hstep := quiet_step hash reg e (hk e (List.mem_cons_self _ _)) h
      have hrest := ih (regStep hash reg e).1
        (fun x hx => hk x (List.mem_cons_of_mem _ hx)) hstep.1
      simp only [regRun]
      exact ⟨hrest.1, by simp [hstep.2, hrest.2]⟩

/-! ## The claims -/

/-- C4: when the file cannot be opened, `calculateChecksum` returns the
previously known digest (not an error or an empty value), so
`hasSameFileChecksum` reports `true` and the async-completion comparison
never treats such a file as changed (no digest update, no debounce timer
started). -/
theorem c4_read_failure_returns_previous_digest (hash : Bytes → Bytes)
    (sizeBytes : Int) (prev : Bytes) (w : Watch) :
    calculateChecksum hash none sizeBytes prev = prev ∧
    w.hasSameFileChecksum hash none = true ∧
    w.asyncComplete (calculateChecksum hash none w.fileChecksumSizeBytes w.fileChecksum) =
      { w with ignoreFileChange := false, pendingChecks := w.pendingChecks - 1 } := by
  refine ⟨rfl, ?_, ?_⟩
  · simp [Watch.hasSameFileChecksum, calculateChecksum]
  · exact asyncComplete_of_eq w _ rfl

/-- C5: on async checksum completion, a differing digest is stored and the
debounce timer is started; an equal digest leaves the stored digest and the
debounce timer untouched; the reentrancy guard is cleared in both cases. -/
theorem c5_async_completion_behaviour (w : Watch) (c : Bytes) :
    (c ≠ w.fileChecksum →
      w.asyncComplete c =
        { w with fileChecksum := c, changeDelayActive := true,
                 ignoreFileChange := false, pendingChecks := w.pendingChecks - 1 }) ∧
    (c = w.fileChecksum →
      w.asyncComplete c =
        { w with ignoreFileChange := false, pendingChecks := w.pendingChecks - 1 }) ∧
    (w.asyncComplete c).ignoreFileChange = false := by
  refine ⟨asyncComplete_of_ne w c, asyncComplete_of_eq w c, ?_⟩
  by_cases h : c = w.fileChecksum
  · rw [asyncComplete_of_eq w c h]
  · rw [asyncComplete_of_ne w c h]

/-- Witness for C5 at a concrete watch and digests. -/
theorem c5_async_completion_behaviour_witness :
    Watch.init.asyncComplete [1] =
      { Watch.init with fileChecksum := [1], changeDelayActive := true,
                        ignoreFileChange := false, pendingChecks := 0 } ∧
    Watch.init.asyncComplete [] =
      { Watch.init with ignoreFileChange := false, pendingChecks := 0 } :=
  ⟨(c5_async_completion_behaviour Watch.init [1]).1 (by decide),
   (c5_async_completion_behaviour Watch.init []).2.1 (by decide)⟩

/-- C6: with a positive limit of `N` KiB, the checksum depends only on the
first `N*1024` bytes of the file (so any change strictly beyond that
prefix leaves it unchanged); assuming the hash is injective (the model of
collision resistance), a change within the first `N*1024` bytes changes the
checksum; a non-positive limit hashes the entire file. -/
theorem c6_checksum_prefix_limit (hash : Bytes → Bytes) (N : Int)
    (d1 d2 prev1 prev2 : Bytes) :
    (0 < N → d1.take (N.toNat * 1024) = d2.take (N.toNat * 1024) →
      calculateChecksum hash (some d1) (N * 1024) prev1 =
        calculateChecksum hash (some d2) (N * 1024) prev2) ∧
    (Function.Injective hash → 0 < N →
      d1.take (N.toNat * 1024) ≠ d2.take (N.toNat * 1024) →
      calculateChecksum hash (some d1) (N * 1024) prev1 ≠
        calculateChecksum hash (some d2) (N * 1024) prev2) ∧
    (N ≤ 0 → calculateChecksum hash (some d1) (N * 1024) prev1 = hash d1) := by
  have htn : 0 < N → (N * 1024).toNat = N.toNat * 1024 := fun hN => by omega
  have hpos : 0 < N → 0 < N * 1024 := fun hN => by omega
  refine ⟨?_, ?_, ?_⟩
  · intro hN hpre
    simp only [calculateChecksum, if_pos (hpos hN), htn hN, hpre]
  · intro hinj hN hpre heq
    apply hpre
    simp only [calculateChecksum, if_pos (hpos hN), htn hN] at heq
    exact hinj heq
  · intro hN
    have hneg : ¬ 0 < N * 1024 := by omega
    simp only [calculateChecksum, if_neg hneg]

/-- Witness for C6: identity hash, limit 1 KiB; the three parts applied to
concrete contents. -/
theorem c6_checksum_prefix_limit_witness :
    calculateChecksum idHash (some [7]) (1 * 1024) [] =
      calculateChecksum idHash (some [7]) (1 * 1024) [9] ∧
    calculateChecksum idHash (some [1]) (1 * 1024) [] ≠
      calculateChecksum idHash (some [2]) (1 * 1024) [] ∧
    calculateChecksum idHash (some [5]) (0 * 1024) [] = idHash [5] :=
  ⟨(c6_checksum_prefix_limit idHash 1 [7] [7] [] [9]).1 (by decide) rfl,
   (c6_checksum_prefix_limit idHash 1 [1] [2] [] []).2.1
     (fun a b hab => hab) (by decide) (by decide),
   (c6_checksum_prefix_limit idHash 0 [5] [5] [] []).2.2 (by decide)⟩

/-- C9 (amended): after `stop()`, from any state, the path and checksum are
cleared and the periodic checksum timer and the debounce timer are stopped;
however the ignore-window timer (and the `ignoreChanges` flag) keep their
previous state — the source's `stop` never touches
`m_fileIgnoreDelayTimer`. -/
theorem c9_stop_clears_path_checksum_and_two_timers (w : Watch) :
    w.stop.filePath = "" ∧ w.stop.fileChecksum = [] ∧
    w.stop.checksumTimerActive = false ∧ w.stop.changeDelayActive = false ∧
    w.stop.ignoreDelayActive = w.ignoreDelayActive ∧
    w.stop.ignoreFileChange = w.ignoreFileChange :=
  ⟨rfl, rfl, rfl, rfl, rfl, rfl⟩

/-- C9 counterexample: from a reachable state whose ignore-window timer is
active (start, then resume), `stop()` leaves that timer active, refuting
the claim that after `stop()` all of the watch's timers — including the
ignore-window timer — are inactive. -/
theorem c9_stop_counterexample :
    (((Watch.init.start idHash "a" 0 (-1) (some [0])).resume).stop).ignoreDelayActive = true := by
  decide

/-- C10: delivering a change event or a periodic timer fire to a watch with
no assigned path is a complete no-op: the state is unchanged (in particular
no asynchronous checksum is dispatched), and at the registry level the step
changes nothing and emits no notification when every entry under the path
has an empty path string. -/
theorem c10_stopped_watch_event_noop (hash : Bytes → Bytes) (w : Watch)
    (reg : FileWatcher) (p : String) :
    (w.filePath = "" → w.checkFileChanged = w) ∧
    ((∀ q ∈ reg.watches, q.1 = p → q.2.filePath = "") →
      regStep hash reg (.osEvent p) = (reg, [])) := by
  constructor
  · intro h
    apply checkFileChanged_of_gated
    have he : w.filePath.isEmpty = true := by rw [h]; rfl
    simp [Watch.shouldIgnoreChanges, he]
  · intro h
    simp only [regStep, FileWatcher.checkFileChanged]
    cases hl : reg.watches.lookup p with
    | none => rfl
    | some v =>
        have hu : updateWatch reg.watches p Watch.checkFileChanged = reg.watches := by
          apply updateWatch_eq_self
          intro q hq hqp
          apply checkFileChanged_of_gated
          have he : q.2.filePath.isEmpty = true := by rw [h q hq hqp]; rfl
          simp [Watch.shouldIgnoreChanges, he]
        simp [hu]

/-- Witness for C10 at a stopped watch and an empty registry. -/
theorem c10_stopped_watch_event_noop_witness :
    Watch.init.checkFileChanged = Watch.init ∧
    regStep idHash FileWatcher.init (.osEvent "a") = (FileWatcher.init, []) :=
  ⟨(c10_stopped_watch_event_noop idHash Watch.init FileWatcher.init "a").1 rfl,
   (c10_stopped_watch_event_noop idHash Watch.init FileWatcher.init "a").2
     (by intro q hq; simp [FileWatcher.init] at hq)⟩

/-- C7: an untracked path is benign everywhere: `hasSameFileChecksum`
returns `false` (not an error), an incoming OS event for it is silently
dropped with no notification and no state change, and `removePath` is a
no-op; moreover a stale OS event arriving after `removePath(p)` is also a
no-op with no notification. -/
theorem c7_untracked_path_benign (hash : Bytes → Bytes) (reg : FileWatcher)
    (p : String) (content : Option Bytes) :
    (reg.watches.lookup p = none →
      reg.hasSameFileChecksum hash p content = false ∧
      reg.checkFileChanged p = (reg, []) ∧
      reg.removePath p = reg) ∧
    regStep hash (reg.removePath p) (.osEvent p) = (reg.removePath p, []) := by
  constructor
  · intro h
    refine ⟨?_, ?_, ?_⟩
    · simp [FileWatcher.hasSameFileChecksum, h]
    · simp [FileWatcher.checkFileChanged, h]
    · simp [FileWatcher.removePath, h]
  · cases hx : reg.watches.lookup p with
    | none =>
        have hr : reg.removePath p = reg := by simp [FileWatcher.removePath, hx]
        rw [hr]
        simp [regStep, FileWatcher.checkFileChanged, hx]
    | some v =>
        have h2 : (reg.removePath p).watches.lookup p = none := by
          simp [FileWatcher.removePath, hx, lookup_filter_ne]
        simp [regStep, FileWatcher.checkFileChanged, h2]

/-- Witness for C7: an empty registry does not track "a"; removing and then
delivering a stale event on a populated registry is a no-op. -/
theorem c7_untracked_path_benign_witness :
    FileWatcher.init.hasSameFileChecksum idHash "a" (some [0]) = false ∧
    regStep idHash (sampleReg.removePath "a") (.osEvent "a") =
      (sampleReg.removePath "a", []) :=
  ⟨((c7_untracked_path_benign idHash FileWatcher.init "a" (some [0])).1 rfl).1,
   (c7_untracked_path_benign idHash sampleReg "a" (some [0])).2⟩

/-- C8 (amended): when the OS-backend subscription fails during `addPath`,
no failure signal of any kind reaches the caller — `addPath` returns
nothing, still creates and starts the per-path watch, and the caller-visible
watch map is identical to the success case; the subscription is attempted at
most once (never retried internally). -/
theorem c8_subscription_failure_not_surfaced (hash : Bytes → Bytes)
    (reg : FileWatcher) (p : String) (i k : Int) (content : Option Bytes)
    (ok : Bool) :
    (reg.addPath hash p i k content ok).2 ≤ 1 ∧
    ((reg.addPath hash p i k content ok).1.watches.lookup p).isSome = true ∧
    (reg.addPath hash p i k content false).1.watches =
      (reg.addPath hash p i k content true).1.watches := by
  cases hx : reg.watches.lookup p with
  | some w =>
      refine ⟨?_, ?_, ?_⟩ <;>
        simp [FileWatcher.addPath, hx, lookup_updateWatch_self]
  | none =>
      refine ⟨?_, ?_, ?_⟩ <;>
        simp [FileWatcher.addPath, hx, lookup_updateWatch_self]

/-- C8 counterexample: with a failing backend subscription, `addPath`
surfaces nothing to the caller: the path is tracked just as in the success
case and the watch map is bit-for-bit identical, refuting the claim that
the failure is surfaced as an explicit failure signal. -/
theorem c8_subscription_failure_counterexample :
    ((FileWatcher.init.addPath idHash "b" 0 (-1) none false).1.watches.lookup "b").isSome = true ∧
    (FileWatcher.init.addPath idHash "b" 0 (-1) none false).1.watches =
      (FileWatcher.init.addPath idHash "b" 0 (-1) none true).1.watches := by
  decide

/-- C2 (amended): a change event or periodic timer fire that arrives while
`ignoreChanges` is set, the ignore-window timer is active, or the debounce
timer is pending, is dropped with no state change; otherwise `ignoreChanges`
is set together with dispatching exactly one asynchronous checksum; and the
at-most-one-in-flight invariant holds along every trace in which `resume()`
broadcasts and (re)registrations — the two operations that clear the
reentrancy guard — happen only while no checksum computation is
outstanding. -/
theorem c2_single_flight_invariant (hash : Bytes → Bytes) (w : Watch)
    (reg : FileWatcher) (es : List RegEvent) :
    (w.shouldIgnoreChanges = true → w.checkFileChanged = w) ∧
    (w.shouldIgnoreChanges = false →
      w.checkFileChanged =
        { w with ignoreFileChange := true, pendingChecks := w.pendingChecks + 1 }) ∧
    (AllInv reg → GuardSafe hash reg es → AllInv (regRun hash reg es).1) :=
  ⟨checkFileChanged_of_gated w, checkFileChanged_of_open w,
   fun h hg => allInv_run_guardSafe hash reg es hg h⟩

/-- Witness for C2 at concrete watches and a concrete trace whose resume
broadcast happens at a quiescent moment (after the in-flight checksum has
completed), so the guard-safety hypothesis is exercised non-vacuously. -/
theorem c2_single_flight_invariant_witness :
    Watch.init.checkFileChanged = Watch.init ∧
    sampleWatch.checkFileChanged =
      { sampleWatch with ignoreFileChange := true,
                         pendingChecks := sampleWatch.pendingChecks + 1 } ∧
    AllInv (regRun idHash sampleReg
      [.osEvent "a", .asyncDone "a" (some [1]), .resumeAll, .osEvent "a"]).1 :=
  ⟨(c2_single_flight_invariant idHash Watch.init sampleReg []).1 (by decide),
   (c2_single_flight_invariant idHash sampleWatch sampleReg []).2.1 (by decide),
   (c2_single_flight_invariant idHash Watch.init sampleReg
      [.osEvent "a", .asyncDone "a" (some [1]), .resumeAll, .osEvent "a"]).2.2
     (by decide) (by decide)⟩

/-- C2 counterexample: dispatch a checksum, broadcast `resume()` (which
clears the guard and arms the ignore window), let the ignore window elapse,
and deliver a second OS event: the second event dispatches another
asynchronous checksum while the first is still outstanding, so two
computations are in flight for the same path, refuting the unconditional
at-most-one-in-flight claim. -/
theorem c2_single_flight_counterexample :
    ((regRun idHash sampleReg
        [.osEvent "a", .resumeAll, .ignoreExpire "a", .osEvent "a"]).1.watches.lookup "a").map
      Watch.pendingChecks = some 2 := by
  decide

/-- C3 (amended): after `pause()` is broadcast, provided no asynchronous
checksum is in flight at that moment, no `fileChanged` notification fires
for any tracked path — however many OS events, pause/resume broadcasts,
timer firings or removals occur — as long as no resume's ignore window
elapses and no path is (re)registered. An in-flight checksum at pause time
can still complete, start the debounce timer, and fire (see the
counterexample), which is why the proviso is needed. -/
theorem c3_pause_suppresses_notifications (hash : Bytes → Bytes)
    (reg : FileWatcher) (es : List RegEvent)
    (hp : ∀ q ∈ reg.watches, q.2.pendingChecks = 0)
    (hk : ∀ e ∈ es, inPauseWindow e = true) :
    (regRun hash (regStep hash reg .pauseAll).1 es).2 = [] := by
  have hq : AllQuiet (regStep hash reg .pauseAll).1 := by
    intro q hqm
    have hqm2 : q ∈ reg.watches.map (fun r => (r.1, r.2.pause)) := hqm
    obtain ⟨r, hr, hrq⟩ := List.mem_map.mp hqm2
    rw [← hrq]
    exact ⟨rfl, hp r hr, Or.inl rfl⟩
  exact (quiet_run hash _ es hk hq).2

/-- Witness for C3: a paused single-path registry stays silent across OS
events, a resume, further OS events and a debounce-timer fire, as long as
the ignore window has not elapsed. -/
theorem c3_pause_suppresses_notifications_witness :
    (regRun idHash (regStep idHash sampleReg .pauseAll).1
      [.osEvent "a", .resumeAll, .osEvent "a", .debounceFire "a", .removeEv "a"]).2 = [] :=
  c3_pause_suppresses_notifications idHash sampleReg
    [.osEvent "a", .resumeAll, .osEvent "a", .debounceFire "a", .removeEv "a"]
    (by decide) (by decide)

/-- C3 counterexample: an OS event dispatches a checksum, then `pause()` is
broadcast, then the in-flight checksum completes with a different digest
(starting the debounce timer) and the debounce timer fires: a notification
is emitted after `pause()` although no resume's ignore window has elapsed —
indeed `resume()` was never called — refuting the claim as stated. -/
theorem c3_pause_counterexample :
    (regRun idHash sampleReg
      [.osEvent "a", .pauseAll, .asyncDone "a" (some [1]), .debounceFire "a"]).2 = ["a"] := by
  decide

/-- C1: for an armed watched path (no guard, no active timers, nothing in
flight) whose content has changed, a debounce window consisting of one OS
change event, any number `n` of duplicate OS events while the checksum is
in flight, the checksum completion, any further number `m` of duplicate OS
events while the debounce timer is pending, and the debounce firing, emits
the `fileChanged` notification for that path exactly once. -/
theorem c1_exactly_one_notification_per_window (hash : Bytes → Bytes)
    (reg : FileWatcher) (p : String) (w : Watch) (n m : Nat)
    (content : Option Bytes)
    (h1 : reg.watches.lookup p = some w)
    (h2 : w.filePath = p)
    (h3 : w.shouldIgnoreChanges = false)
    (h4 : w.pendingChecks = 0)
    (h5 : calculateChecksum hash content w.fileChecksumSizeBytes w.fileChecksum ≠
          w.fileChecksum) :
    (regRun hash reg
      (.osEvent p :: (List.replicate n (.osEvent p) ++
        .asyncDone p content :: (List.replicate m (.osEvent p) ++ [.debounceFire p])))).2
      = [p] := by
  have hw1 : w.checkFileChanged =
      { w with ignoreFileChange := true, pendingChecks := w.pendingChecks + 1 } :=
    checkFileChanged_of_open w h3
  obtain ⟨w1, hs1, hw1i, hw1pend, hw1f, hw1sz, hw1c⟩ :
      ∃ w1, ((regStep hash reg (.osEvent p)).1.watches.lookup p) = some w1 ∧
        w1.ignoreFileChange = true ∧ w1.pendingChecks ≠ 0 ∧ w1.filePath = p ∧
        w1.fileChecksumSizeBytes = w.fileChecksumSizeBytes ∧
        w1.fileChecksum = w.fileChecksum := by
    refine ⟨w.checkFileChanged, ?_, ?_, ?_, ?_, ?_, ?_⟩
    · rw [regStep_osEvent_lookup, h1]
      rfl
    · rw [hw1]
    · rw [hw1]
      simp
    · rw [hw1]
      exact h2
    · rw [hw1]
    · rw [hw1]
  have hg1 : w1.checkFileChanged = w1 :=
    checkFileChanged_of_gated w1 (shouldIgnore_of_ignore w1 hw1i)
  have hph1 := regRun_osEvents_fixed hash p n (regStep hash reg (.osEvent p)).1 w1 hs1 hg1
  have hstep2 := regStep_asyncDone_of_pending hash
    (regRun hash (regStep hash reg (.osEvent p)).1 (List.replicate n (.osEvent p))).1
    p content w1 hph1.1 hw1pend
  have hne : calculateChecksum hash content w1.fileChecksumSizeBytes w1.fileChecksum ≠
      w1.fileChecksum := by
    rw [hw1sz, hw1c]
    exact h5
  obtain ⟨w2, hs3, hw2d, hw2f⟩ :
      ∃ w2, (((regStep hash (regRun hash (regStep hash reg (.osEvent p)).1
            (List.replicate n (.osEvent p))).1 (.asyncDone p content)).1).watches.lookup p)
          = some w2 ∧ w2.changeDelayActive = true ∧ w2.filePath = p := by
    refine ⟨_, hstep2.2, ?_, ?_⟩
    · rw [asyncComplete_of_ne w1 _ hne]
    · rw [asyncComplete_of_ne w1 _ hne]
      exact hw1f
  have hg2 : w2.checkFileChanged = w2 :=
    checkFileChanged_of_gated w2 (shouldIgnore_of_delay w2 hw2d)
  have hph2 := regRun_osEvents_fixed hash p m
    ((regStep hash (regRun hash (regStep hash reg (.osEvent p)).1
      (List.replicate n (.osEvent p))).1 (.asyncDone p content)).1) w2 hs3 hg2
  have hfire := regStep_debounceFire_of_active hash
    ((regRun hash ((regStep hash (regRun hash (regStep hash reg (.osEvent p)).1
      (List.replicate n (.osEvent p))).1 (.asyncDone p content)).1)
      (List.replicate m (.osEvent p))).1) p w2 hph2.1 hw2d
  simp only [regRun_cons, regRun_append, regStep_osEvent_snd, List.nil_append,
    hph1.2, hstep2.1, hph2.2, hfire, regRun, List.append_nil, hw2f]

/-- Witness for C1: the single-path sample registry, two duplicates while
the checksum is in flight and one while the debounce timer is pending. -/
theorem c1_exactly_one_notification_per_window_witness :
    (regRun idHash sampleReg
      (.osEvent "a" :: (List.replicate 2 (.osEvent "a") ++
        .asyncDone "a" (some [1]) :: (List.replicate 1 (.osEvent "a") ++
          [.debounceFire "a"])))).2 = ["a"] :=
  c1_exactly_one_notification_per_window idHash sampleReg "a" sampleWatch 2 1
    (some [1]) (by decide) (by decide) (by decide) (by decide) (by decide)

end FileWatcherSpec
